import Mathlib

/-!
Verification of the Upbit API client (`src/app.py`), centred on the
signed-request builder `UpbitClient._jwt_headers`, the transport
dispatcher `UpbitClient._request`, and the trading-guarded operations
(`place_order`, `cancel_order`, `withdraw`).

The Python code is shallowly embedded: parameter mappings become
association lists (Python dicts have unique keys and preserve insertion
order), `urllib.parse.urlencode(..., doseq=True)` with its default
`quote_plus` quoting is modelled byte-for-byte over UTF-8 bytes, and the
library crypto primitives (`hashlib.sha512(...).hexdigest()`,
`jwt.encode(..., algorithm="HS256")`) are abstracted as function
parameters since they are external dependencies; the builder's calls to
them are recorded in an explicit event log so that "the hash function is
never invoked" is a statement about the log.
-/

namespace Upbit

/-- A Python parameter value as accepted by the client: a string, a
number, an ordered sequence of strings, or Python `None` (which
`urlencode(..., doseq=True)` coerces via `str` to `"None"`). -/
inductive PValue where
  | s (v : String)
  | n (v : Int)
  | seq (vs : List String)
  | pyNone
deriving DecidableEq, Repr

/-- A parameter mapping: the items of a Python dict in presentation
(insertion) order.  Dict keys are unique; theorems that depend on this
take it as a `Nodup` hypothesis. -/
abbrev Params := List (String × PValue)

/-- UTF-8 encoding of one character (code point to bytes). -/
def charUtf8 (c : Char) : List Nat :=
  let v := c.toNat
  if v < 0x80 then [v]
  else if v < 0x800 then [0xC0 + v / 0x40, 0x80 + v % 0x40]
  else if v < 0x10000 then
    [0xE0 + v / 0x1000, 0x80 + v / 0x40 % 0x40, 0x80 + v % 0x40]
  else
    [0xF0 + v / 0x40000, 0x80 + v / 0x1000 % 0x40, 0x80 + v / 0x40 % 0x40,
      0x80 + v % 0x40]

/-- The UTF-8 bytes of a string — `s.encode()` in the Python source. -/
def strBytes (s : String) : List Nat :=
  List.flatten (s.data.map charUtf8)

/-- Upper-case hexadecimal digit, as used by `urllib.parse.quote`. -/
def hexDigitUpper (v : Nat) : Char :=
  if v < 10 then Char.ofNat (48 + v) else Char.ofNat (55 + v)

/-- Two-digit upper-case hex of a byte. -/
def hex2 (b : Nat) : String :=
  String.mk [hexDigitUpper (b / 16 % 16), hexDigitUpper (b % 16)]

/-- Bytes `urllib.parse.quote` leaves unescaped with `safe=''`:
ASCII letters, digits, and `_ . - ~`. -/
def isSafeByte (b : Nat) : Bool :=
  (65 ≤ b && b ≤ 90) || (97 ≤ b && b ≤ 122) || (48 ≤ b && b ≤ 57) ||
    b == 95 || b == 46 || b == 45 || b == 126

/-- Behaviour of `quote_plus` on a single UTF-8 byte: space becomes `+`, safe bytes
stay themselves, everything else is percent-encoded. -/
def quoteByte (b : Nat) : String :=
  if b == 32 then "+"
  else if isSafeByte b then String.singleton (Char.ofNat b)
  else "%" ++ hex2 b

/-- Python `urllib.parse.quote_plus(s)` (the default `quote_via` of
`urlencode`). -/
def quote_plus (s : String) : String :=
  String.join ((strBytes s).map quoteByte)

/-- The `key=value` entries one item contributes under
`urlencode(..., doseq=True)`: a string value gives one quoted pair, a
number is rendered with `str` and quoted, a sequence is expanded to
repeated pairs in its given order, and `None` falls back to
`quote_plus(str(None))`, i.e. `None`. -/
def pairEntries : String × PValue → List String
  | (k, PValue.s v) => [quote_plus k ++ "=" ++ quote_plus v]
  | (k, PValue.n i) => [quote_plus k ++ "=" ++ quote_plus (toString i)]
  | (k, PValue.seq vs) => vs.map (fun v => quote_plus k ++ "=" ++ quote_plus v)
  | (k, PValue.pyNone) => [quote_plus k ++ "=" ++ quote_plus "None"]

/-- Python `urllib.parse.urlencode(items, doseq=True)` over items in the given
order. -/
def urlencode (l : Params) : String :=
  String.intercalate "&" (List.flatten (l.map pairEntries))

/-- Lexicographic comparison of strings as code-point lists — Python's
`<=` on `str` (code-point by code-point). -/
def charsLE : List Char → List Char → Bool
  | [], _ => true
  | _ :: _, [] => false
  | a :: as, b :: bs => if a = b then charsLE as bs else decide (a < b)

theorem charsLE_total : ∀ s t, charsLE s t = true ∨ charsLE t s = true
  | [], _ => Or.inl rfl
  | _ :: _, [] => Or.inr rfl
  | a :: as, b :: bs => by
    by_cases hab : a = b
    · subst hab
      simpa [charsLE] using charsLE_total as bs
    · rcases lt_trichotomy a b with h | h | h
      · exact Or.inl (by simp [charsLE, hab, h])
      · exact absurd h hab
      · exact Or.inr (by simp [charsLE, Ne.symm hab, h])

theorem charsLE_trans : ∀ s t u, charsLE s t = true → charsLE t u = true →
    charsLE s u = true
  | [], _, _, _, _ => rfl
  | a :: as, [], _, h, _ => by simp [charsLE] at h
  | _ :: _, _ :: _, [], _, h => by simp [charsLE] at h
  | a :: as, b :: bs, c :: cs, h1, h2 => by
    by_cases hab : a = b <;> by_cases hbc : b = c
    · subst hab; subst hbc
      simp only [charsLE, if_pos rfl] at h1 h2 ⊢
      exact charsLE_trans as bs cs h1 h2
    · subst hab
      simpa [charsLE, hbc] using h2
    · subst hbc
      simpa [charsLE, hab] using h1
    · simp only [charsLE, if_neg hab] at h1
      simp only [charsLE, if_neg hbc] at h2
      have hac : a < c := lt_trans (of_decide_eq_true h1) (of_decide_eq_true h2)
      simp [charsLE, ne_of_lt hac, hac]

theorem charsLE_antisymm : ∀ s t, charsLE s t = true → charsLE t s = true →
    s = t
  | [], [], _, _ => rfl
  | [], _ :: _, _, h => by simp [charsLE] at h
  | _ :: _, [], h, _ => by simp [charsLE] at h
  | a :: as, b :: bs, h1, h2 => by
    by_cases hab : a = b
    · subst hab
      simp only [charsLE, if_pos rfl] at h1 h2
      rw [charsLE_antisymm as bs h1 h2]
    · simp only [charsLE, if_neg hab] at h1
      simp only [charsLE, if_neg (Ne.symm hab)] at h2
      exact absurd (lt_trans (of_decide_eq_true h1) (of_decide_eq_true h2))
        (lt_irrefl a)

/-- The comparison Python's `sorted` applies to dict items: compare by
key (tuples compare componentwise, and dict keys are distinct, so only
the key matters). -/
def keyLE (a b : String × PValue) : Prop :=
  charsLE a.1.data b.1.data = true

instance : DecidableRel keyLE := fun a b =>
  instDecidableEqBool (charsLE a.1.data b.1.data) true

instance keyLE_total : IsTotal (String × PValue) keyLE :=
  ⟨fun a b => charsLE_total a.1.data b.1.data⟩

instance keyLE_trans : IsTrans (String × PValue) keyLE :=
  ⟨fun a b c h1 h2 => charsLE_trans a.1.data b.1.data c.1.data h1 h2⟩

/-- Python `sorted(d.items())` — the items sorted by key. -/
def sortedItems (l : Params) : Params :=
  List.insertionSort keyLE l

/-- Embeds `UpbitClient._flatten`: a documented no-op stub, returns its input
unchanged (`src/app.py` lines 113–118). -/
def flatten (d : Params) : Params := d

/-- The canonical query string the builder hashes:
`urlencode(sorted(self._flatten(params).items()), doseq=True)`
(`src/app.py` line 104). -/
def canonicalQS (params : Params) : String :=
  urlencode (sortedItems (flatten params))

/-- The JWT claims object (`payload` dict in `_jwt_headers`): always the
access key and the nonce; `query_hash` / `query_hash_alg` only when the
parameter mapping is non-empty. -/
structure Payload where
  access_key : String
  nonce : String
  query_hash : Option String
  query_hash_alg : Option String
deriving DecidableEq, Repr

/-- The distinct failure exits of the client, one per `raise` site the
claims are about: the credential check in `_jwt_headers`
(`RuntimeError`, the spec's `MissingCredentials`), the
`enable_trading` guard (`PermissionError`), and `cancel_order`'s
`ValueError` when neither `uuid` nor `identifier` is given. -/
inductive ClientError where
  | missingCredentials
  | permissionDenied
  | missingOrderId
deriving DecidableEq, Repr

/-- One invocation of a cryptographic library routine, recorded in order:
`hashlib.sha512(...)` on the given bytes, or `jwt.encode(payload, key)`. -/
inductive CryptoCall where
  | hashCall (input : List Nat)
  | signCall (payload : Payload) (key : String)
deriving DecidableEq, Repr

/-- Python truthiness of an optional string: `None` and `""` are falsy. -/
def strTruthy : Option String → Bool
  | Option.none => false
  | Option.some s => !(s == "")

/-- The claims object `_jwt_headers` builds for given access key, nonce
and parameters (`src/app.py` lines 97–109).  `sha512hex` abstracts
`hashlib.sha512(...).hexdigest()` (a lowercase-hex string of the
digest), an external library primitive. -/
def jwtPayload (sha512hex : List Nat → String) (accessKey nonce : String)
    (params : Params) : Payload :=
  if params.isEmpty then
    { access_key := accessKey, nonce := nonce,
      query_hash := Option.none, query_hash_alg := Option.none }
  else
    { access_key := accessKey, nonce := nonce,
      query_hash := Option.some (sha512hex (strBytes (canonicalQS params))),
      query_hash_alg := Option.some "SHA512" }

/-- Embeds `UpbitClient._jwt_headers` (`src/app.py` lines 93–111).  Credentials
are checked first (`if not self.access_key or not self.secret_key`);
then the claims object is built — hashing the canonical query string
only when params are non-empty — and signed with `jwt.encode(payload,
secret_key, algorithm="HS256")`, abstracted as `jwtEncode`.  The second
component lists the crypto-library calls made, in order; the nonce
(`str(uuid.uuid4())`) is passed in, abstracting the randomness source. -/
def jwt_headers (sha512hex : List Nat → String)
    (jwtEncode : Payload → String → String)
    (accessKey secretKey : Option String) (nonce : String) (params : Params) :
    Except ClientError (List (String × String)) × List CryptoCall :=
  if !strTruthy accessKey || !strTruthy secretKey then
    (Except.error ClientError.missingCredentials, [])
  else
    let ak := accessKey.getD ""
    let sk := secretKey.getD ""
    let payload := jwtPayload sha512hex ak nonce params
    let hashCalls :=
      if params.isEmpty then []
      else [CryptoCall.hashCall (strBytes (canonicalQS params))]
    (Except.ok [("Authorization", "Bearer " ++ jwtEncode payload sk)],
      hashCalls ++ [CryptoCall.signCall payload sk])

/-- The scalar values `requests` actually serializes for one parameter:
strings and numbers as themselves, sequences element by element, and
`None` values are skipped entirely (`requests.models.to_key_val_list` /
`_encode_params`). -/
def scalarValues : PValue → List String
  | PValue.s v => [v]
  | PValue.n i => [toString i]
  | PValue.seq vs => vs
  | PValue.pyNone => []

/-- The query string `requests` sends for `params=...` on GET/DELETE:
the pairs in presentation order (no sorting), with the same
`urlencode(..., doseq=True)` quoting. -/
def requestsQS (l : Params) : String :=
  String.intercalate "&"
    (List.flatten (l.map (fun kv =>
      (scalarValues kv.2).map (fun v => quote_plus kv.1 ++ "=" ++ quote_plus v))))

/-- JSON escaping of one character as `json.dumps` does with its default
`ensure_ascii=True`: quote, backslash and the named controls escaped,
other controls and all non-ASCII as lowercase `\uXXXX` (surrogate pairs
above the BMP). -/
def jsonEscapeChar (c : Char) : String :=
  let v := c.toNat
  let hexLower : Nat → Char := fun d =>
    if d < 10 then Char.ofNat (48 + d) else Char.ofNat (87 + d)
  let u4 : Nat → String := fun n =>
    String.mk ['\\', 'u', hexLower (n / 4096 % 16), hexLower (n / 256 % 16),
      hexLower (n / 16 % 16), hexLower (n % 16)]
  if c = '"' then "\\\""
  else if c = '\\' then "\\\\"
  else if c = '\n' then "\\n"
  else if c = '\t' then "\\t"
  else if c = '\r' then "\\r"
  else if v = 8 then "\\b"
  else if v = 12 then "\\f"
  else if v < 32 then u4 v
  else if v < 127 then String.singleton c
  else if v < 0x10000 then u4 v
  else u4 (0xD800 + (v - 0x10000) / 0x400) ++ u4 (0xDC00 + (v - 0x10000) % 0x400)

/-- Python `json.dumps` of a string. -/
def jsonStr (s : String) : String :=
  "\"" ++ String.join (s.data.map jsonEscapeChar) ++ "\""

/-- Python `json.dumps` of one parameter value (`None` is JSON `null`). -/
def jsonOfPValue : PValue → String
  | PValue.s v => jsonStr v
  | PValue.n i => toString i
  | PValue.seq vs => "[" ++ String.intercalate ", " (vs.map jsonStr) ++ "]"
  | PValue.pyNone => "null"

/-- Python `json.dumps(params)` with the default separators `(", ", ": ")` —
the POST body `requests` sends for `json=params` in the dispatcher's
default mode. -/
def jsonOfParams (l : Params) : String :=
  "\x7b" ++
    String.intercalate ", "
      (l.map (fun kv => jsonStr kv.1 ++ ": " ++ jsonOfPValue kv.2)) ++
  "\x7d"

/-- The client state the claims depend on (`UpbitClient.__init__`):
resolved credentials, base URL and the trading capability flag. -/
structure Client where
  access_key : Option String
  secret_key : Option String
  base_url : String
  enable_trading : Bool
deriving DecidableEq, Repr

/-- The outbound HTTP call `_request` hands to `requests`: method, URL,
headers, and the serialized parameters — as a query string for
GET/DELETE, as a body for POST/PUT. -/
structure WireRequest where
  method : String
  url : String
  headers : List (String × String)
  query : Option String
  body : Option String
deriving DecidableEq, Repr

/-- The dispatch arm of `_request` (`src/app.py` lines 134–149):
GET/DELETE send `params=params` (query string); otherwise the default
`send_json_for_post=True` sends `json=params or {}` with an explicit
`Content-Type`, and the fallback sends `data=params or {}`
(form-encoded). -/
def dispatch (method url : String) (headers : List (String × String))
    (params : Option Params) (send_json_for_post : Bool) : WireRequest :=
  if method == "GET" || method == "DELETE" then
    { method := method, url := url, headers := headers,
      query := params.map requestsQS, body := Option.none }
  else if send_json_for_post then
    { method := method, url := url,
      headers := headers ++ [("Content-Type", "application/json")],
      query := Option.none,
      body := Option.some (jsonOfParams (params.getD [])) }
  else
    { method := method, url := url, headers := headers,
      query := Option.none,
      body := Option.some (requestsQS (params.getD [])) }

/-- Embeds `UpbitClient._request` (`src/app.py` lines 120–149) up to the point
the transport call is issued: for a private request the signed headers
are built first (`params or {}` is what is hashed); a failure there
propagates and nothing is dispatched. -/
def Client.request (c : Client) (sha512hex : List Nat → String)
    (jwtEncode : Payload → String → String) (nonce : String)
    (method path : String) (params : Option Params) (priv : Bool)
    (send_json_for_post : Bool) :
    Except ClientError WireRequest × List CryptoCall :=
  let url := c.base_url ++ path
  if priv then
    match jwt_headers sha512hex jwtEncode c.access_key c.secret_key nonce
        (params.getD []) with
    | (Except.error e, calls) => (Except.error e, calls)
    | (Except.ok hdrs, calls) =>
      (Except.ok (dispatch method url hdrs params send_json_for_post), calls)
  else
    (Except.ok (dispatch method url [] params send_json_for_post), [])

/-- Embeds `UpbitClient.place_order` (`src/app.py` lines 252–281): the
`enable_trading` guard comes first; then the parameter dict is built
(`volume`/`price` added when not `None`, already stringified;
`identifier`/`time_in_force`/`smp_type` added when truthy) and POSTed
privately to `/v1/orders`. -/
def Client.place_order (c : Client) (sha512hex : List Nat → String)
    (jwtEncode : Payload → String → String) (nonce : String)
    (market side ord_type : String)
    (volume price identifier time_in_force smp_type : Option String) :
    Except ClientError WireRequest × List CryptoCall :=
  if !c.enable_trading then
    (Except.error ClientError.permissionDenied, [])
  else
    let params : Params :=
      [("market", PValue.s market), ("side", PValue.s side),
        ("ord_type", PValue.s ord_type)]
      ++ (match volume with
          | Option.some v => [("volume", PValue.s v)]
          | Option.none => [])
      ++ (match price with
          | Option.some v => [("price", PValue.s v)]
          | Option.none => [])
      ++ (if strTruthy identifier then
            [("identifier", PValue.s (identifier.getD ""))] else [])
      ++ (if strTruthy time_in_force then
            [("time_in_force", PValue.s (time_in_force.getD ""))] else [])
      ++ (if strTruthy smp_type then
            [("smp_type", PValue.s (smp_type.getD ""))] else [])
    c.request sha512hex jwtEncode nonce "POST" "/v1/orders"
      (Option.some params) true true

/-- Embeds `UpbitClient.cancel_order` (`src/app.py` lines 283–292): the
`enable_trading` guard, then the `uuid`/`identifier` presence check,
then a private DELETE of `/v1/order` carrying exactly the truthy ones. -/
def Client.cancel_order (c : Client) (sha512hex : List Nat → String)
    (jwtEncode : Payload → String → String) (nonce : String)
    (uuid identifier : Option String) :
    Except ClientError WireRequest × List CryptoCall :=
  if !c.enable_trading then
    (Except.error ClientError.permissionDenied, [])
  else if !strTruthy uuid && !strTruthy identifier then
    (Except.error ClientError.missingOrderId, [])
  else
    let params : Params :=
      (if strTruthy uuid then [("uuid", PValue.s (uuid.getD ""))] else [])
      ++ (if strTruthy identifier then
            [("identifier", PValue.s (identifier.getD ""))] else [])
    c.request sha512hex jwtEncode nonce "DELETE" "/v1/order"
      (Option.some params) true true

/-- Embeds `UpbitClient.withdraw` (`src/app.py` lines 349–359): the
`enable_trading` guard, then a private POST of `/v1/withdraws/coin`
(`amount` passed through `str` by the caller side of this embedding). -/
def Client.withdraw (c : Client) (sha512hex : List Nat → String)
    (jwtEncode : Payload → String → String) (nonce : String)
    (currency amount address : String)
    (net_type secondary_address : Option String) :
    Except ClientError WireRequest × List CryptoCall :=
  if !c.enable_trading then
    (Except.error ClientError.permissionDenied, [])
  else
    let params : Params :=
      [("currency", PValue.s currency), ("amount", PValue.s amount),
        ("address", PValue.s address)]
      ++ (if strTruthy net_type then
            [("net_type", PValue.s (net_type.getD ""))] else [])
      ++ (if strTruthy secondary_address then
            [("secondary_address", PValue.s (secondary_address.getD ""))] else [])
    c.request sha512hex jwtEncode nonce "POST" "/v1/withdraws/coin"
      (Option.some params) true true

/-! Section: a concrete token codec.

`jwt.encode` is an external library routine; theorems about the token
only assume it is invertible by a verifier holding the key (which HS256
JWTs are).  To witness those theorems on concrete inputs we provide one
concrete invertible codec: a length-prefixed rendering of the claims
followed by the key. -/

/-- Length-prefixed rendering of a string (unary length, then `:`). -/
def encStr (s : String) : String :=
  String.mk (List.replicate s.data.length 'L') ++ ":" ++ s

/-- Rendering of an optional claim field. -/
def encOpt : Option String → String
  | Option.none => "N"
  | Option.some v => "S" ++ encStr v

/-- A concrete, invertible stand-in for `jwt.encode`: all claim fields
length-prefixed, with the signing key bound at the end. -/
def modelEncode (p : Payload) (secret : String) : String :=
  encStr p.access_key ++ encStr p.nonce ++ encOpt p.query_hash ++
    encOpt p.query_hash_alg ++ encStr secret

/-- Reads a unary length prefix up to `:`. -/
def readLen : List Char → Option (Nat × List Char)
  | [] => Option.none
  | c :: cs =>
    if c = ':' then Option.some (0, cs)
    else if c = 'L' then (readLen cs).map (fun p => (p.1 + 1, p.2))
    else Option.none

/-- Reads one length-prefixed string. -/
def readStr (cs : List Char) : Option (String × List Char) :=
  match readLen cs with
  | Option.none => Option.none
  | Option.some (n, rest) =>
    if n ≤ rest.length then Option.some (String.mk (rest.take n), rest.drop n)
    else Option.none

/-- Reads one optional claim field. -/
def readOpt (cs : List Char) : Option (Option String × List Char) :=
  match cs with
  | [] => Option.none
  | c :: rest =>
    if c = 'N' then Option.some (Option.none, rest)
    else if c = 'S' then (readStr rest).map (fun p => (Option.some p.1, p.2))
    else Option.none

/-- The verifier for `modelEncode`: recovers the claims and checks the
bound key against the supplied secret. -/
def modelDecode (t secret : String) : Option Payload :=
  match readStr t.data with
  | Option.none => Option.none
  | Option.some (ak, r1) =>
    match readStr r1 with
    | Option.none => Option.none
    | Option.some (nn, r2) =>
      match readOpt r2 with
      | Option.none => Option.none
      | Option.some (qh, r3) =>
        match readOpt r3 with
        | Option.none => Option.none
        | Option.some (qa, r4) =>
          match readStr r4 with
          | Option.none => Option.none
          | Option.some (sec, r5) =>
            if sec = secret && r5.isEmpty then
              Option.some (Payload.mk ak nn qh qa)
            else Option.none

theorem readLen_replicate (n : Nat) (cs : List Char) :
    readLen (List.replicate n 'L' ++ ':' :: cs) = Option.some (n, cs) := by
  induction n with
  | zero => simp [readLen]
  | succ k ih =>
    rw [List.replicate_succ, List.cons_append, readLen]
    rw [if_neg (by decide), if_pos rfl, ih]
    rfl

theorem readStr_enc (s : String) (rest : List Char) :
    readStr ((encStr s).data ++ rest) = Option.some (s, rest) := by
  have hdata : (encStr s).data
      = List.replicate s.data.length 'L' ++ ':' :: (s.data) := by
    simp [encStr, String.data_append]
  rw [hdata, List.append_assoc, List.cons_append, readStr,
    readLen_replicate s.data.length (s.data ++ rest)]
  simp [List.take_left, List.drop_left]

theorem readStr_enc_nil (s : String) :
    readStr (encStr s).data = Option.some (s, []) := by
  have := readStr_enc s []
  rwa [List.append_nil] at this

theorem readOpt_enc (o : Option String) (rest : List Char) :
    readOpt ((encOpt o).data ++ rest) = Option.some (o, rest) := by
  cases o with
  | none =>
    show readOpt ('N' :: rest) = _
    rw [readOpt, if_pos rfl]
  | some v =>
    show readOpt ('S' :: ((encStr v).data ++ rest)) = _
    rw [readOpt, if_neg (by decide), if_pos rfl, readStr_enc]
    rfl

theorem modelDecode_modelEncode (p : Payload) (secret : String) :
    modelDecode (modelEncode p secret) secret = Option.some p := by
  have hdata : (modelEncode p secret).data
      = (encStr p.access_key).data ++ ((encStr p.nonce).data ++
          ((encOpt p.query_hash).data ++ ((encOpt p.query_hash_alg).data ++
            (encStr secret).data))) := by
    simp [modelEncode, String.data_append]
  rw [modelDecode, hdata]
  simp [readStr_enc, readOpt_enc, readStr_enc_nil]

/-! Section: helper lemmas. -/

/-- Strict key order: the key order together with key distinctness. -/
def keyLT (a b : String × PValue) : Prop := keyLE a b ∧ a.1 ≠ b.1

instance keyLT_antisymm : IsAntisymm (String × PValue) keyLT :=
  ⟨fun a b h1 h2 => by
    have hk : a.1.data = b.1.data := charsLE_antisymm _ _ h1.1 h2.1
    exact absurd (congrArg String.mk hk) h1.2⟩

/-- With distinct keys, any two presentations of the same item set sort
to the same list: Python's `sorted(d.items())` is presentation-order
independent. -/
theorem sortedItems_perm_eq (l1 l2 : Params) (hp : l1.Perm l2)
    (hnd : (l1.map Prod.fst).Nodup) : sortedItems l1 = sortedItems l2 := by
  have hps : (sortedItems l1).Perm (sortedItems l2) :=
    ((List.perm_insertionSort keyLE l1).trans hp).trans
      (List.perm_insertionSort keyLE l2).symm
  have key_pairwise : ∀ l : Params, (l.map Prod.fst).Nodup →
      List.Sorted keyLT (List.insertionSort keyLE l) := by
    intro l hl
    have hs : List.Sorted keyLE (List.insertionSort keyLE l) :=
      List.sorted_insertionSort keyLE l
    have hnd' : ((List.insertionSort keyLE l).map Prod.fst).Nodup :=
      (((List.perm_insertionSort keyLE l).map Prod.fst).nodup_iff).mpr hl
    have hpw : (List.insertionSort keyLE l).Pairwise (fun a b => a.1 ≠ b.1) :=
      List.pairwise_map.mp hnd'
    exact hs.and hpw
  have hnd2 : (l2.map Prod.fst).Nodup := ((hp.map Prod.fst).nodup_iff).mp hnd
  exact List.eq_of_perm_of_sorted hps (key_pairwise l1 hnd) (key_pairwise l2 hnd2)

/-- The `nonce` claim is the supplied nonce. -/
theorem jwtPayload_nonce (sha512hex : List Nat → String) (ak n : String)
    (params : Params) : (jwtPayload sha512hex ak n params).nonce = n := by
  unfold jwtPayload
  split <;> rfl

/-- The `query_hash` claim does not depend on the nonce. -/
theorem jwtPayload_query_hash_nonce_free (sha512hex : List Nat → String)
    (ak n1 n2 : String) (params : Params) :
    (jwtPayload sha512hex ak n1 params).query_hash
      = (jwtPayload sha512hex ak n2 params).query_hash := by
  unfold jwtPayload
  split <;> rfl

/-- On values other than `None`, the builder's `urlencode` items agree
with the per-item serialization `requests` uses. -/
theorem pairEntries_eq_scalar (kv : String × PValue) (h : kv.2 ≠ PValue.pyNone) :
    pairEntries kv
      = (scalarValues kv.2).map (fun v => quote_plus kv.1 ++ "=" ++ quote_plus v) := by
  obtain ⟨k, v⟩ := kv
  cases v <;> simp_all [pairEntries, scalarValues]

/-- Without `None` values, the builder's serialization of an item list
equals the one `requests` sends, item order preserved. -/
theorem urlencode_eq_requestsQS (l : Params)
    (h : ∀ kv ∈ l, kv.2 ≠ PValue.pyNone) : urlencode l = requestsQS l := by
  unfold urlencode requestsQS
  rw [List.map_congr_left (fun kv hkv => pairEntries_eq_scalar kv (h kv hkv))]

/-! Section: claim theorems. -/

/-- C1: for the parameter mapping `{"market": "KRW-BTC", "side": "bid"}`
the builder's canonical query string is exactly `market=KRW-BTC&side=bid`
(keys sorted byte-wise ascending), the claims object's `query_hash` is
the lowercase-hex SHA-512 digest of exactly that byte string, and its
`query_hash_alg` is the literal `"SHA512"` — stated for every digest
function, i.e. the hash input and the field wiring are exact. -/
theorem c1_market_side_scenario (sha512hex : List Nat → String)
    (ak nonce : String) :
    canonicalQS [("market", PValue.s "KRW-BTC"), ("side", PValue.s "bid")]
        = "market=KRW-BTC&side=bid"
    ∧ jwtPayload sha512hex ak nonce
        [("market", PValue.s "KRW-BTC"), ("side", PValue.s "bid")]
        = { access_key := ak, nonce := nonce,
            query_hash :=
              Option.some (sha512hex (strBytes "market=KRW-BTC&side=bid")),
            query_hash_alg := Option.some "SHA512" } := by
  have hq : canonicalQS [("market", PValue.s "KRW-BTC"), ("side", PValue.s "bid")]
      = "market=KRW-BTC&side=bid" := by decide
  refine ⟨hq, ?_⟩
  rw [jwtPayload, if_neg (by decide), hq]

/-- C2: whenever the access key or the secret key is absent (`None`) or
empty, the builder fails with the missing-credentials error and the
crypto-call log is empty — neither the hash function nor the
token-signing function is invoked, so it never signs with empty keys. -/
theorem c2_missing_credentials (sha512hex : List Nat → String)
    (jwtEncode : Payload → String → String)
    (accessKey secretKey : Option String) (nonce : String) (params : Params)
    (h : strTruthy accessKey = false ∨ strTruthy secretKey = false) :
    jwt_headers sha512hex jwtEncode accessKey secretKey nonce params
      = (Except.error ClientError.missingCredentials, []) := by
  unfold jwt_headers
  rcases h with h | h <;> rw [h] <;> simp

theorem c2_missing_credentials_witness :
    jwt_headers (fun _ => "h") (fun _ _ => "t") (Option.some "") (Option.some "sk")
        "nonce" [("market", PValue.s "KRW-BTC")]
      = (Except.error ClientError.missingCredentials, []) :=
  c2_missing_credentials (fun _ => "h") (fun _ _ => "t") (Option.some "")
    (Option.some "sk") "nonce" [("market", PValue.s "KRW-BTC")]
    (Or.inl (by decide))

/-- C4: for the empty parameter mapping the claims object is exactly the
access key and the nonce; `query_hash` and `query_hash_alg` are absent
(`none`), not present with empty or null values. -/
theorem c4_empty_params_claims (sha512hex : List Nat → String)
    (ak nonce : String) :
    jwtPayload sha512hex ak nonce []
      = { access_key := ak, nonce := nonce,
          query_hash := Option.none, query_hash_alg := Option.none } := by
  rw [jwtPayload, if_pos (by decide : ([] : Params).isEmpty = true)]

/-- C5: a sequence-valued parameter is encoded as repeated `key=value`
pairs in the sequence's own order (for any key and any sequence), and
concretely `{"uuids": ["u1","u2"]}` canonicalizes to `uuids=u1&uuids=u2`. -/
theorem c5_sequence_repeats (k : String) (vs : List String) :
    canonicalQS [(k, PValue.seq vs)]
        = String.intercalate "&"
            (vs.map (fun v => quote_plus k ++ "=" ++ quote_plus v))
    ∧ canonicalQS [("uuids", PValue.seq ["u1", "u2"])] = "uuids=u1&uuids=u2" := by
  constructor
  · simp [canonicalQS, flatten, sortedItems, List.insertionSort,
      List.orderedInsert, urlencode, pairEntries]
  · decide

/-- C6: for every parameter mapping (distinct keys, as in a dict) and
every two presentation orders of its entries, the canonical query string
is identical, and therefore the `query_hash` claim is identical. -/
theorem c6_order_independent (sha512hex : List Nat → String)
    (ak nonce : String) (l1 l2 : Params) (hp : l1.Perm l2)
    (hnd : (l1.map Prod.fst).Nodup) :
    canonicalQS l1 = canonicalQS l2
    ∧ (jwtPayload sha512hex ak nonce l1).query_hash
        = (jwtPayload sha512hex ak nonce l2).query_hash := by
  have hc : canonicalQS l1 = canonicalQS l2 := by
    unfold canonicalQS flatten
    rw [sortedItems_perm_eq l1 l2 hp hnd]
  refine ⟨hc, ?_⟩
  have he : l1.isEmpty = l2.isEmpty := by
    cases l1 <;> cases l2 <;> simp_all
  unfold jwtPayload
  by_cases h : l1.isEmpty = true
  · rw [if_pos h, if_pos (he ▸ h)]
  · rw [if_neg h, if_neg (he ▸ h)]
    simp [hc]

theorem c6_order_independent_witness :
    canonicalQS [("b", PValue.n 2), ("a", PValue.n 1)]
        = canonicalQS [("a", PValue.n 1), ("b", PValue.n 2)]
    ∧ (jwtPayload (fun _ => "h") "ak" "nonce"
          [("b", PValue.n 2), ("a", PValue.n 1)]).query_hash
        = (jwtPayload (fun _ => "h") "ak" "nonce"
          [("a", PValue.n 1), ("b", PValue.n 2)]).query_hash :=
  c6_order_independent (fun _ => "h") "ak" "nonce"
    [("b", PValue.n 2), ("a", PValue.n 1)]
    [("a", PValue.n 1), ("b", PValue.n 2)] (by decide) (by decide)

/-- C8: with the trading capability flag off, each destructive operation
(`place_order`, `cancel_order`, `withdraw`) returns the typed permission
error at its entry point: no crypto call is made and no outbound request
value is produced. -/
theorem c8_trading_guard (c : Client) (sha512hex : List Nat → String)
    (jwtEncode : Payload → String → String)
    (nonce market side ord_type currency amount address : String)
    (volume price identifier time_in_force smp_type : Option String)
    (cuuid cidentifier net_type secondary_address : Option String)
    (h : c.enable_trading = false) :
    c.place_order sha512hex jwtEncode nonce market side ord_type volume price
        identifier time_in_force smp_type
      = (Except.error ClientError.permissionDenied, [])
    ∧ c.cancel_order sha512hex jwtEncode nonce cuuid cidentifier
      = (Except.error ClientError.permissionDenied, [])
    ∧ c.withdraw sha512hex jwtEncode nonce currency amount address net_type
        secondary_address
      = (Except.error ClientError.permissionDenied, []) := by
  unfold Client.place_order Client.cancel_order Client.withdraw
  rw [h]
  exact ⟨rfl, rfl, rfl⟩

theorem c8_trading_guard_witness :
    (Client.mk (Option.some "ak") (Option.some "sk") "https://api.upbit.com"
        false).place_order (fun _ => "h") (fun _ _ => "t") "nonce" "KRW-BTC"
        "bid" "limit" (Option.some "1") (Option.some "50000") Option.none
        Option.none Option.none
      = (Except.error ClientError.permissionDenied, [])
    ∧ (Client.mk (Option.some "ak") (Option.some "sk") "https://api.upbit.com"
        false).cancel_order (fun _ => "h") (fun _ _ => "t") "nonce"
        (Option.some "u1") Option.none
      = (Except.error ClientError.permissionDenied, [])
    ∧ (Client.mk (Option.some "ak") (Option.some "sk") "https://api.upbit.com"
        false).withdraw (fun _ => "h") (fun _ _ => "t") "nonce" "BTC" "0.1"
        "addr" Option.none Option.none
      = (Except.error ClientError.permissionDenied, []) :=
  c8_trading_guard _ _ _ "nonce" "KRW-BTC" "bid" "limit" "BTC" "0.1" "addr"
    (Option.some "1") (Option.some "50000") Option.none Option.none Option.none
    (Option.some "u1") Option.none Option.none Option.none rfl

/-- C10: with trading enabled, `cancel_order` with both `uuid` and
`identifier` absent fails immediately with the missing-identifier error
(no crypto call, no outbound request); with at least one supplied, the
private DELETE of `/v1/order` carries exactly the supplied ones. -/
theorem c10_cancel_order_ids (c : Client) (sha512hex : List Nat → String)
    (jwtEncode : Payload → String → String) (nonce : String)
    (uuid identifier : Option String) (ht : c.enable_trading = true) :
    (strTruthy uuid = false → strTruthy identifier = false →
      c.cancel_order sha512hex jwtEncode nonce uuid identifier
        = (Except.error ClientError.missingOrderId, []))
    ∧ (strTruthy uuid = true ∨ strTruthy identifier = true →
      c.cancel_order sha512hex jwtEncode nonce uuid identifier
        = c.request sha512hex jwtEncode nonce "DELETE" "/v1/order"
            (Option.some
              ((if strTruthy uuid then [("uuid", PValue.s (uuid.getD ""))]
                else [])
               ++ (if strTruthy identifier then
                    [("identifier", PValue.s (identifier.getD ""))] else [])))
            true true) := by
  constructor
  · intro h1 h2
    unfold Client.cancel_order
    rw [ht, h1, h2]
    rfl
  · intro h
    unfold Client.cancel_order
    rcases h with h | h <;> rw [ht, h] <;> simp

theorem c10_cancel_order_ids_witness :
    (Client.mk (Option.some "ak") (Option.some "sk") "https://api.upbit.com"
          true).cancel_order (fun _ => "h") (fun _ _ => "t") "nonce"
          (Option.some "u1") Option.none
        = (Client.mk (Option.some "ak") (Option.some "sk")
            "https://api.upbit.com" true).request (fun _ => "h") (fun _ _ => "t")
            "nonce" "DELETE" "/v1/order"
            (Option.some [("uuid", PValue.s "u1")]) true true := by
  have h := (c10_cancel_order_ids
    (Client.mk (Option.some "ak") (Option.some "sk") "https://api.upbit.com"
      true) (fun _ => "h") (fun _ _ => "t") "nonce" (Option.some "u1")
    Option.none rfl).2 (Or.inl rfl)
  simpa using h

/-- C9, counterexample: a mapping carrying a value outside the
serializable types (Python `None`) does not make the builder raise — the
value is coerced via `str` into the canonical query string (`a=None`)
and, with credentials present, the builder succeeds; there is no
encoding-failure exit in the code. -/
theorem c9_counterexample_none_encodes :
    canonicalQS [("a", PValue.pyNone)] = "a=None"
    ∧ (jwt_headers (fun _ => "h") (fun _ _ => "t") (Option.some "ak")
          (Option.some "sk") "nonce" [("a", PValue.pyNone)]).1
        = Except.ok [("Authorization", "Bearer t")] :=
  ⟨by decide, rfl⟩

/-- C9, amended: the builder never raises an encoding failure — every
parameter value (strings, numbers, sequences, and unsupported types such
as `None`, via their `str` form) is representable in the canonical query
string, and with non-empty credentials the builder succeeds on every
mapping; its only synchronous failure is the missing-credentials error. -/
theorem c9_amended_no_encoding_failure (sha512hex : List Nat → String)
    (jwtEncode : Payload → String → String) (ak sk nonce : String)
    (params : Params) (hak : ak ≠ "") (hsk : sk ≠ "") :
    (jwt_headers sha512hex jwtEncode (Option.some ak) (Option.some sk) nonce
        params).1
      = Except.ok [("Authorization",
          "Bearer " ++ jwtEncode (jwtPayload sha512hex ak nonce params) sk)] := by
  unfold jwt_headers
  have h1 : strTruthy (Option.some ak) = true := by
    simp [strTruthy, hak]
  have h2 : strTruthy (Option.some sk) = true := by
    simp [strTruthy, hsk]
  rw [h1, h2]
  rfl

theorem c9_amended_no_encoding_failure_witness :
    (jwt_headers (fun _ => "h") (fun _ _ => "t") (Option.some "ak")
        (Option.some "sk") "nonce" [("a", PValue.seq ["u1", "u2"])]).1
      = Except.ok [("Authorization",
          "Bearer " ++ (fun _ _ => "t")
            (jwtPayload (fun _ => "h") "ak" "nonce"
              [("a", PValue.seq ["u1", "u2"])]) "sk")] :=
  c9_amended_no_encoding_failure (fun _ => "h") (fun _ _ => "t") "ak" "sk"
    "nonce" [("a", PValue.seq ["u1", "u2"])] (by decide) (by decide)

/-- C3, counterexample: for a private POST in the dispatcher's default
body mode, the byte string the builder hashes (the canonical query
string `market=KRW-BTC`) is not the byte string sent on the wire — the
body is the JSON serialization of the parameters, which differs byte for
byte. -/
theorem c3_counterexample_post_json :
    canonicalQS [("market", PValue.s "KRW-BTC")] = "market=KRW-BTC"
    ∧ ((Client.mk (Option.some "ak") (Option.some "sk")
            "https://api.upbit.com" true).request (fun _ => "h")
          (fun _ _ => "t") "nonce" "POST" "/v1/orders"
          (Option.some [("market", PValue.s "KRW-BTC")]) true true).1
        = Except.ok (WireRequest.mk "POST" "https://api.upbit.com/v1/orders"
            [("Authorization", "Bearer t"), ("Content-Type", "application/json")]
            Option.none (Option.some "\x7b\"market\": \"KRW-BTC\"\x7d"))
    ∧ strBytes "market=KRW-BTC" ≠ strBytes "\x7b\"market\": \"KRW-BTC\"\x7d" :=
  ⟨by decide, rfl, by decide⟩

/-- C3, amended: for GET/DELETE private requests whose mapping is
presented in key-sorted order and has no `None` values, the bytes the
builder hashes are exactly the bytes of the wire query string (and in
general the two serializations contain the same pairs, reordered); for
POST in the default JSON body mode the two serializations differ, as the
counterexample shows. -/
theorem c3_amended_get_delete (c : Client) (sha512hex : List Nat → String)
    (jwtEncode : Payload → String → String) (nonce path method : String)
    (params : Params)
    (hm : method = "GET" ∨ method = "DELETE")
    (hak : strTruthy c.access_key = true) (hsk : strTruthy c.secret_key = true)
    (hsorted : sortedItems params = params)
    (hnone : ∀ kv ∈ params, kv.2 ≠ PValue.pyNone)
    (hne : params ≠ []) :
    c.request sha512hex jwtEncode nonce method path (Option.some params)
        true true
      = (Except.ok (WireRequest.mk method (c.base_url ++ path)
            [("Authorization", "Bearer " ++
              jwtEncode (jwtPayload sha512hex (c.access_key.getD "") nonce
                params) (c.secret_key.getD ""))]
            (Option.some (requestsQS params)) Option.none),
         [CryptoCall.hashCall (strBytes (requestsQS params)),
          CryptoCall.signCall
            (jwtPayload sha512hex (c.access_key.getD "") nonce params)
            (c.secret_key.getD "")]) := by
  have hqs : canonicalQS params = requestsQS params := by
    unfold canonicalQS flatten
    rw [hsorted, urlencode_eq_requestsQS params hnone]
  have hemp : params.isEmpty = false := by
    simp [List.isEmpty_iff, hne]
  rcases hm with hm | hm <;> subst hm <;>
    simp [Client.request, jwt_headers, hak, hsk, hemp, dispatch, hqs]

theorem c3_amended_get_delete_witness :
    (Client.mk (Option.some "ak") (Option.some "sk") "https://api.upbit.com"
          true).request (fun _ => "h") (fun _ _ => "t") "nonce" "GET"
        "/v1/orders/open" (Option.some [("market", PValue.s "KRW-BTC")])
        true true
      = (Except.ok (WireRequest.mk "GET" "https://api.upbit.com/v1/orders/open"
            [("Authorization", "Bearer " ++
              (fun _ _ => "t")
                (jwtPayload (fun _ => "h") "ak" "nonce"
                  [("market", PValue.s "KRW-BTC")]) "sk")]
            (Option.some (requestsQS [("market", PValue.s "KRW-BTC")]))
            Option.none),
         [CryptoCall.hashCall
            (strBytes (requestsQS [("market", PValue.s "KRW-BTC")])),
          CryptoCall.signCall
            (jwtPayload (fun _ => "h") "ak" "nonce"
              [("market", PValue.s "KRW-BTC")]) "sk"]) :=
  c3_amended_get_delete
    (Client.mk (Option.some "ak") (Option.some "sk") "https://api.upbit.com"
      true) (fun _ => "h") (fun _ _ => "t") "nonce" "/v1/orders/open" "GET"
    [("market", PValue.s "KRW-BTC")] (Or.inl rfl) (by decide) (by decide)
    (by decide) (by decide) (by decide)

/-- C7: for every parameter mapping (empty included) and any two
invocations with the same mapping and credentials but distinct nonces
(distinctness of `uuid4` draws is assumed of the randomness source), the
two tokens the builder returns differ — given any verifier that inverts
the signing function under the secret key, as a JWT verifier does — yet
both verify under the secret key as carrying the same `query_hash` (or
the same absence of one) while differing in nonce. -/
theorem c7_fresh_tokens_same_hash (sha512hex : List Nat → String)
    (jwtEncode : Payload → String → String)
    (jwtDecode : String → String → Option Payload)
    (ak sk n1 n2 : String) (params : Params)
    (hak : ak ≠ "") (hsk : sk ≠ "") (hn : n1 ≠ n2)
    (hdec : ∀ p : Payload, jwtDecode (jwtEncode p sk) sk = Option.some p) :
    ∃ t1 t2 : String,
      (jwt_headers sha512hex jwtEncode (Option.some ak) (Option.some sk) n1
          params).1
        = Except.ok [("Authorization", "Bearer " ++ t1)]
      ∧ (jwt_headers sha512hex jwtEncode (Option.some ak) (Option.some sk) n2
          params).1
        = Except.ok [("Authorization", "Bearer " ++ t2)]
      ∧ t1 ≠ t2
      ∧ ∃ p1 p2 : Payload,
          jwtDecode t1 sk = Option.some p1 ∧ jwtDecode t2 sk = Option.some p2
          ∧ p1.nonce ≠ p2.nonce ∧ p1.query_hash = p2.query_hash := by
  have h1 : strTruthy (Option.some ak) = true := by simp [strTruthy, hak]
  have h2 : strTruthy (Option.some sk) = true := by simp [strTruthy, hsk]
  refine ⟨jwtEncode (jwtPayload sha512hex ak n1 params) sk,
    jwtEncode (jwtPayload sha512hex ak n2 params) sk, ?_, ?_, ?_, ?_⟩
  · unfold jwt_headers
    rw [h1, h2]
    rfl
  · unfold jwt_headers
    rw [h1, h2]
    rfl
  · intro heq
    have hd1 := hdec (jwtPayload sha512hex ak n1 params)
    have hd2 := hdec (jwtPayload sha512hex ak n2 params)
    rw [heq, hd2] at hd1
    have : (jwtPayload sha512hex ak n2 params).nonce
        = (jwtPayload sha512hex ak n1 params).nonce := by
      rw [Option.some_inj.mp hd1]
    rw [jwtPayload_nonce, jwtPayload_nonce] at this
    exact hn this.symm
  · refine ⟨jwtPayload sha512hex ak n1 params, jwtPayload sha512hex ak n2 params,
      hdec _, hdec _, ?_, ?_⟩
    · rw [jwtPayload_nonce, jwtPayload_nonce]
      exact hn
    · exact jwtPayload_query_hash_nonce_free sha512hex ak n1 n2 params

theorem c7_fresh_tokens_same_hash_witness :
    ∃ t1 t2 : String,
      (jwt_headers (fun _ => "h") modelEncode (Option.some "ak")
          (Option.some "sk") "nonce-1" [("market", PValue.s "KRW-BTC")]).1
        = Except.ok [("Authorization", "Bearer " ++ t1)]
      ∧ (jwt_headers (fun _ => "h") modelEncode (Option.some "ak")
          (Option.some "sk") "nonce-2" [("market", PValue.s "KRW-BTC")]).1
        = Except.ok [("Authorization", "Bearer " ++ t2)]
      ∧ t1 ≠ t2
      ∧ ∃ p1 p2 : Payload,
          modelDecode t1 "sk" = Option.some p1
          ∧ modelDecode t2 "sk" = Option.some p2
          ∧ p1.nonce ≠ p2.nonce ∧ p1.query_hash = p2.query_hash :=
  c7_fresh_tokens_same_hash (fun _ => "h") modelEncode modelDecode "ak" "sk"
    "nonce-1" "nonce-2" [("market", PValue.s "KRW-BTC")] (by decide) (by decide)
    (by decide) (fun p => modelDecode_modelEncode p "sk")

end Upbit
